import Mathlib

/-!
Verification of a scientific-calculator pipeline: tokenizer, shunting-yard
postfix builder, postfix stack evaluator over a bounded polynomial value type,
and a mode orchestrator that either evaluates a constant expression or solves a
linear equation.  The C++ source is embedded shallowly: machine doubles are
idealized as rationals, thrown `std::string` exceptions become the `thrown`
outcome, the source's `exit(0)` calls become the `exited` outcome, and any
out-of-bounds `std::vector` access (undefined behavior in the source) becomes
the `ub` outcome.
-/

/-- Outcome of running a piece of the embedded C++ code: normal return,
a thrown `string` exception, process termination via `exit(0)`, or
undefined behavior (an out-of-bounds vector access). -/
inductive Outcome (α : Type) where
  | ok (a : α)
  | thrown (msg : String)
  | exited (msg : String)
  | ub
deriving DecidableEq

def Outcome.bind {α β : Type} : Outcome α → (α → Outcome β) → Outcome β
  | .ok a, f => f a
  | .thrown m, _ => .thrown m
  | .exited m, _ => .exited m
  | .ub, _ => .ub

instance : Monad Outcome where
  pure := Outcome.ok
  bind := Outcome.bind

/-!
Rational arithmetic.  The `Rat` field operations of the library are marked
irreducible, which blocks kernel evaluation of concrete runs, so the embedding
uses the following kernel-reducible implementations; each is proven equal to
the corresponding field operation just below, so every theorem about the
embedded code is simultaneously a theorem about ordinary `ℚ` arithmetic.
-/

def qadd (a b : ℚ) : ℚ := mkRat (a.num * b.den + b.num * a.den) (a.den * b.den)

def qsub (a b : ℚ) : ℚ := mkRat (a.num * b.den - b.num * a.den) (a.den * b.den)

def qmul (a b : ℚ) : ℚ := mkRat (a.num * b.num) (a.den * b.den)

def qdiv (a b : ℚ) : ℚ := qmul a (Rat.divInt b.den b.num)

theorem qadd_eq (a b : ℚ) : qadd a b = a + b := (Rat.add_def' a b).symm

theorem qsub_eq (a b : ℚ) : qsub a b = a - b := (Rat.sub_def' a b).symm

theorem qmul_eq (a b : ℚ) : qmul a b = a * b := by
  rw [Rat.mul_def, qmul, mkRat]
  simp [Nat.mul_ne_zero a.den_nz b.den_nz]

theorem qdiv_eq (a b : ℚ) : qdiv a b = a / b := by
  rw [Rat.div_def, qdiv, qmul_eq, Rat.inv_def]

/-- Coefficients of a polynomial, ascending powers, index 0 the constant
term (`vector<value_type> coeff` with `value_type = double`, idealized
as `ℚ`). -/
abbrev Coeffs := List ℚ

/-- `POLYNOMIAL_EPS` / `EPS`: the zero threshold `1e-6`. -/
def EPS : ℚ := mkRat 1 1000000

/-- `Polynomial::degree()` — returns `coeff.size()`, i.e. the coefficient
count, not the mathematical degree. -/
def pdegree (a : Coeffs) : Nat := a.length

/-- `Polynomial::is_constant()`. -/
def is_constant (a : Coeffs) : Bool := a.length == 1

/-- Unary `Polynomial::operator-`: flips the sign of every coefficient. -/
def pNeg (a : Coeffs) : Coeffs := a.map (fun c => -c)

/-- `Polynomial::operator+`: position-wise sum, width the max of the two
widths, missing positions read as 0. -/
def pAdd (a b : Coeffs) : Coeffs :=
  (List.range (max a.length b.length)).map (fun i => qadd (a.getD i 0) (b.getD i 0))

/-- `Polynomial::operator-` (binary): rejected when both coefficient
sequences have length > 1; otherwise copies the left operand and subtracts
only the constant terms.  Reads `coeff[0]` of both operands, so an empty
operand is an out-of-bounds access. -/
def pSub (a b : Coeffs) : Outcome Coeffs :=
  if 1 < a.length ∧ 1 < b.length then
    .thrown "Substraction not supported for polynomials of degree >= 1"
  else
    match a, b.head? with
    | a0 :: as, some b0 => .ok (qsub a0 b0 :: as)
    | _, _ => .ub

/-- Scale every coefficient of `p` by the constant term of `q`
(the loop body of `Polynomial::operator*`); `q.coeff[0]` is only read when
the loop runs at least once. -/
def scaleByConst (p q : Coeffs) : Outcome Coeffs :=
  match p with
  | [] => .ok []
  | _ =>
    match q.head? with
    | some c => .ok (p.map (fun x => qmul x c))
    | none => .ub

/-- `Polynomial::operator*`: rejected when both coefficient sequences have
length ≥ 2; otherwise the operand of maximal length (the left one on ties)
is scaled by the constant term of the other. -/
def pMul (a b : Coeffs) : Outcome Coeffs :=
  if 2 ≤ a.length ∧ 2 ≤ b.length then
    .thrown "Multiplication of polynomials of degree >= 2 not allowed"
  else if b.length ≤ a.length then scaleByConst a b
  else scaleByConst b a

/-- `Polynomial::operator/`: rejected when the divisor has length > 1 or a
constant term within `1e-6` of zero; otherwise divides every coefficient of
the dividend by the divisor's constant term. -/
def pDiv (a b : Coeffs) : Outcome Coeffs :=
  if 1 < b.length then
    .thrown "Division not supported by polynomials of degree >= 1"
  else
    match b.head? with
    | some b0 =>
      if |b0| < EPS then .thrown "Can't divide polynomial by 0"
      else .ok (a.map (fun x => qdiv x b0))
    | none => .ub

/-- `Polynomial::get_0()` — reads `coeff[0]`. -/
def get_0 (a : Coeffs) : Outcome ℚ :=
  match a.head? with
  | some a0 => .ok a0
  | none => .ub

/-- `Polynomial::solve_degree_1()`: guard is `degree() == 0 ||
abs(coeff[1]) < EPS` with `degree()` the coefficient COUNT, so the first
disjunct only fires on an empty sequence; a length-1 sequence falls through
to the read of `coeff[1]`, which is out of bounds. -/
def solve_degree_1 (a : Coeffs) : Outcome ℚ :=
  if a.length = 0 then
    -- the guard is satisfied without reading coeff[1]; the inner branch
    -- then reads coeff[0] of an empty vector
    .ub
  else
    match a.get? 1 with
    | none => .ub
    | some a1 =>
      if |a1| < EPS then
        match a.head? with
        | some a0 =>
          if |a0| < EPS then
            .thrown "Expression evaluates to 0, infinite number of solutions"
          else
            .thrown "Constant can't equal 0, no solutions"
        | none => .ub
      else
        match a.head? with
        | some a0 => .ok (qdiv (-a0) a1)
        | none => .ub

example : pSub [5] [0, 1] = .ok [5] := by decide
example : pMul [0, 1] [0] = .ok [0, 0] := by decide
example : solve_degree_1 [5] = .ub := by decide
example : solve_degree_1 [-10, 0] = .thrown "Constant can't equal 0, no solutions" := by decide
example : solve_degree_1 [-6, 1] = .ok 6 := by decide

/-! ## Tokens and the tokenizer -/

/-- `enum TokenType` (the `TOKEN_*` constants). -/
inductive TokenType where
  | whitespace | comma | number | op | func | lparen | rparen | var | eq
deriving DecidableEq

/-- `struct Token` (the unused `double value` member is omitted). -/
structure Token where
  identifier : String
  tokenType : TokenType
deriving DecidableEq

/-- The tail scan of `Calculator::parse_number`: walks the characters after
the leading digit, rejecting a letter or `(`, stopping at the first character
that is neither a digit nor a dot, and counting dots.  Returns the consumed
characters and the dot count. -/
def scan_number : List Char → Outcome (List Char × Nat)
  | [] => .ok ([], 0)
  | c :: cs =>
    if c.isAlpha || c == '(' then
      .thrown "Invalid floating number: contains invalid characters"
    else if !c.isDigit && c != '.' then
      .ok ([], 0)
    else
      match scan_number cs with
      | .ok (rest, d) => .ok (c :: rest, d + (if c == '.' then 1 else 0))
      | .thrown m => .thrown m
      | .exited m => .exited m
      | .ub => .ub

/-- `Calculator::parse_number`: returns the numeric prefix of the expression
(whose first character is a digit), or throws on a malformed number. -/
def parse_number (e : List Char) : Outcome (List Char) :=
  match e with
  | [] => .ok []
  | c :: cs =>
    match scan_number cs with
    | .ok (rest, d) =>
      if 1 < d then .thrown "Invalid floating number: too many dots"
      else .ok (c :: rest)
    | .thrown m => .thrown m
    | .exited m => .exited m
    | .ub => .ub

/-- The function-name scan inside `Calculator::get_token`: consumes letters;
the first non-letter must be `(`, space or tab, anything else throws. -/
def scan_func : List Char → Outcome (List Char)
  | [] => .ok []
  | c :: cs =>
    if c.isAlpha then
      match scan_func cs with
      | .ok r => .ok (c :: r)
      | .thrown m => .thrown m
      | .exited m => .exited m
      | .ub => .ub
    else if c != '(' && c != ' ' && c != '\t' then
      .thrown "Invalid function definition"
    else
      .ok []

/-- `expression[1]` is a letter (read only under the `expression.size() > 2`
guard, so the list is nonempty whenever this is consulted). -/
def headAlpha : List Char → Bool
  | [] => false
  | c :: _ => c.isAlpha

/-- `Calculator::get_token`: classifies the next token of the remaining
expression, returning the token and the number of characters consumed
beyond the first.  Branches in source order; never called on an empty
expression. -/
def get_token (e : List Char) (expect_operator : Bool) : Outcome (Token × Nat) :=
  match e with
  | [] => .ub
  | c :: cs =>
    if c == ' ' || c == '\t' then
      .ok (⟨"whitespace", .whitespace⟩, 0)
    else if c == ',' then
      .ok (⟨",", .comma⟩, 0)
    else if c.isDigit then
      match parse_number (c :: cs) with
      | .ok pref => .ok (⟨String.mk pref, .number⟩, pref.length - 1)
      | .thrown m => .thrown m
      | .exited m => .exited m
      | .ub => .ub
    else if c == 'x' && !(decide (2 < (c :: cs).length) && headAlpha cs) then
      .ok (⟨"x", .var⟩, 0)
    else if c.isAlpha then
      match scan_func cs with
      | .ok r => .ok (⟨String.mk (c :: r), .func⟩, r.length)
      | .thrown m => .thrown m
      | .exited m => .exited m
      | .ub => .ub
    else if c == '(' then
      .ok (⟨"(", .lparen⟩, 0)
    else if c == ')' then
      .ok (⟨")", .rparen⟩, 0)
    else if c == '=' then
      .ok (⟨"=", .eq⟩, 0)
    else if c == '-' && !expect_operator then
      .ok (⟨"~", .op⟩, 0)
    else if c == '+' || c == '-' || c == '*' || c == '/' then
      .ok (⟨String.mk [c], .op⟩, 0)
    else
      .thrown "Invalid operator"

/-- The `expect_operator` update at the bottom of the tokenize loop: set
after a right parenthesis, number or variable; cleared after any other
non-whitespace token; untouched by whitespace. -/
def nextExpect (expect : Bool) (t : Token) : Bool :=
  if t.tokenType == .rparen || t.tokenType == .number || t.tokenType == .var then
    true
  else if t.tokenType != .whitespace then
    false
  else
    expect

/-- The loop of `Calculator::tokenize_expression`.  A thrown tokenizer error
is caught in the loop, printed, and the process is terminated by `exit(0)` —
modelled by the `exited` outcome.  The fuel argument starts at the length of
the expression and dominates it throughout, since every token consumes at
least one character. -/
def tokenize_go : Nat → List Char → Bool → Outcome (List Token)
  | _, [], _ => .ok []
  | 0, _ :: _, _ => .ub
  | fuel + 1, c :: cs, expect =>
    match get_token (c :: cs) expect with
    | .ok (tok, extra) =>
      match tokenize_go fuel (cs.drop extra) (nextExpect expect tok) with
      | .ok toks => .ok (tok :: toks)
      | .thrown m => .thrown m
      | .exited m => .exited m
      | .ub => .ub
    | .thrown m => .exited ("Error: " ++ m)
    | .exited m => .exited m
    | .ub => .ub

/-- `Calculator::tokenize_expression`. -/
def tokenize_expression (e : List Char) : Outcome (List Token) :=
  tokenize_go e.length e false

example : tokenize_expression "4 +7=10".data =
    .ok [⟨"4", .number⟩, ⟨"whitespace", .whitespace⟩, ⟨"+", .op⟩, ⟨"7", .number⟩,
         ⟨"=", .eq⟩, ⟨"10", .number⟩] := by decide
example : tokenize_expression "x + 5 = 11".data =
    .ok [⟨"x", .var⟩, ⟨"whitespace", .whitespace⟩, ⟨"+", .op⟩, ⟨"whitespace", .whitespace⟩,
         ⟨"5", .number⟩, ⟨"whitespace", .whitespace⟩, ⟨"=", .eq⟩, ⟨"whitespace", .whitespace⟩,
         ⟨"11", .number⟩] := by decide
example : tokenize_expression "-3".data = .ok [⟨"~", .op⟩, ⟨"3", .number⟩] := by decide
example : tokenize_expression "2-3".data =
    .ok [⟨"2", .number⟩, ⟨"-", .op⟩, ⟨"3", .number⟩] := by decide
example : tokenize_expression "xy".data = .ok [⟨"x", .var⟩, ⟨"y", .func⟩] := by decide
example : tokenize_expression "cos(2)".data =
    .ok [⟨"cos", .func⟩, ⟨"(", .lparen⟩, ⟨"2", .number⟩, ⟨")", .rparen⟩] := by decide
example : tokenize_expression "$".data = .exited "Error: Invalid operator" := by decide
example : tokenize_expression "1.2.3".data =
    .exited "Error: Invalid floating number: too many dots" := by decide

/-! ## The operator/function registry and postfix nodes -/

/-- The closed set of operations built by `FunctionFactory::build`
(the `Function*` subclasses). -/
inductive OpKind where
  | add | sub | mul | div | neg | log | max | min | pow | sin | cos
deriving DecidableEq

/-- The `identifier` member set by each `Function` constructor. -/
def identOf : OpKind → String
  | .add => "+"
  | .sub => "-"
  | .mul => "*"
  | .div => "/"
  | .neg => "~"
  | .log => "log"
  | .max => "max"
  | .min => "min"
  | .pow => "pow"
  | .sin => "sin"
  | .cos => "cos"

/-- The `arity` member set by each `Function` constructor. -/
def arityOf : OpKind → Nat
  | .neg | .log | .sin | .cos => 1
  | _ => 2

/-- The `precedence` member: 1 for `+`/`-`, 2 for `*`/`/`, 10 for the
synthetic negation `~`.  The mathematical functions never initialize it and
it is never read for them (`get_precedence` is only called on tokens of
operator type); 0 stands in for that uninitialized member. -/
def precOf : OpKind → Nat
  | .add | .sub => 1
  | .mul | .div => 2
  | .neg => 10
  | _ => 0

/-- `FunctionFactory::build`: resolves an operator or function token to its
operation.  For any other token type the C++ function falls off its end
without returning — undefined behavior, hence `undef` (it is only ever
called on operator and function tokens). -/
def build (t : Token) : Outcome OpKind :=
  if t.tokenType == .op then
    if t.identifier == "+" then .ok .add
    else if t.identifier == "-" then .ok .sub
    else if t.identifier == "*" then .ok .mul
    else if t.identifier == "/" then .ok .div
    else if t.identifier == "~" then .ok .neg
    else .thrown ("Invalid mathematical operator " ++ t.identifier)
  else if t.tokenType == .func then
    if t.identifier == "log" then .ok .log
    else if t.identifier == "max" then .ok .max
    else if t.identifier == "min" then .ok .min
    else if t.identifier == "pow" then .ok .pow
    else if t.identifier == "sin" then .ok .sin
    else if t.identifier == "cos" then .ok .cos
    else .thrown ("Invalid mathematical function " ++ t.identifier)
  else
    .ub

/-- A node of the postfix output queue: `Scalar` or a resolved operation. -/
inductive Node where
  | scalar (p : Coeffs)
  | opNode (k : OpKind)
deriving DecidableEq

/-- The digit fold underlying the numeric conversion. -/
def digitsVal (l : List Char) : Nat :=
  l.foldl (fun acc c => 10 * acc + (c.toNat - 48)) 0

/-- Models `stod` on a validated number token: digits with at most one dot.
`d1.d2` becomes `(d1 * 10^|d2| + d2) / 10^|d2|`. -/
def parseDecimal (l : List Char) : ℚ :=
  let ip := l.takeWhile (fun c => c != '.')
  match l.dropWhile (fun c => c != '.') with
  | [] => (digitsVal ip : ℚ)
  | _ :: frac => mkRat (digitsVal ip * 10 ^ frac.length + digitsVal frac) (10 ^ frac.length)

example : parseDecimal "10".data = 10 := by decide
example : parseDecimal "2.5".data = 5 / 2 := by
  rw [show parseDecimal "2.5".data = mkRat 25 10 from rfl, Rat.mkRat_eq_div]
  norm_num

/-- `Scalar::parse`: a `Number` token carries its `stod` value as a constant,
a `Variable` token the polynomial `x` (coefficients `[0, 1]`); any other
token type throws. -/
def scalarOfToken (t : Token) : Outcome Coeffs :=
  match t.tokenType with
  | .number => .ok [parseDecimal t.identifier.data]
  | .var => .ok [0, 1]
  | _ => .thrown "Invalid polynomial value"

/-! ## The shunting-yard postfix builder -/

/-- The operator-popping loop of `build_reverse_polish_notation`: while the
stack top is an operator token of precedence ≥ the incoming precedence, pop
it (resolved) onto the output queue. -/
def popGE : List Token → List Node → Nat → Outcome (List Token × List Node)
  | [], out, _ => .ok ([], out)
  | b :: bs, out, p =>
    if b.tokenType == .op then
      match build b with
      | .ok k =>
        if p ≤ precOf k then popGE bs (out ++ [Node.opNode k]) p
        else .ok (b :: bs, out)
      | .thrown m => .thrown m
      | .exited m => .exited m
      | .ub => .ub
    else
      .ok (b :: bs, out)

/-- The pop-until-left-parenthesis loop shared by the comma and right
parenthesis cases: pops and resolves stack tokens onto the output queue,
stopping at a left parenthesis (which stays) or at an empty stack. -/
def popUntilLParen : List Token → List Node → Outcome (List Token × List Node)
  | [], out => .ok ([], out)
  | b :: bs, out =>
    if b.tokenType == .lparen then .ok (b :: bs, out)
    else
      match build b with
      | .ok k => popUntilLParen bs (out ++ [Node.opNode k])
      | .thrown m => .thrown m
      | .exited m => .exited m
      | .ub => .ub

/-- The final loop of `build_reverse_polish_notation`: drain the stack onto
the output queue; a parenthesis still on the stack means mismatched
parentheses. -/
def flushBuffer : List Token → List Node → Outcome (List Node)
  | [], out => .ok out
  | b :: bs, out =>
    if b.tokenType == .lparen || b.tokenType == .rparen then
      .thrown "Mismatched parantheses"
    else
      match build b with
      | .ok k => flushBuffer bs (out ++ [Node.opNode k])
      | .thrown m => .thrown m
      | .exited m => .exited m
      | .ub => .ub

/-- The token loop of `Calculator::build_reverse_polish_notation`
(shunting-yard), with the pending-token stack and output queue threaded
through. -/
def rpn_go : List Token → List Token → List Node → Outcome (List Node)
  | [], buffer, out => flushBuffer buffer out
  | t :: ts, buffer, out =>
    match t.tokenType with
    | .whitespace => rpn_go ts buffer out
    | .number | .var =>
      match scalarOfToken t with
      | .ok p => rpn_go ts buffer (out ++ [Node.scalar p])
      | .thrown m => .thrown m
      | .exited m => .exited m
      | .ub => .ub
    | .op =>
      match build t with
      | .ok k =>
        match popGE buffer out (precOf k) with
        | .ok (buffer2, out2) => rpn_go ts (t :: buffer2) out2
        | .thrown m => .thrown m
        | .exited m => .exited m
        | .ub => .ub
      | .thrown m => .thrown m
      | .exited m => .exited m
      | .ub => .ub
    | .func => rpn_go ts (t :: buffer) out
    | .comma =>
      match popUntilLParen buffer out with
      | .ok (buffer2, out2) =>
        match buffer2 with
        | [] => .thrown "Invalid function declaration: missing left parantheses"
        | _ :: _ => rpn_go ts buffer2 out2
      | .thrown m => .thrown m
      | .exited m => .exited m
      | .ub => .ub
    | .lparen => rpn_go ts (t :: buffer) out
    | .rparen =>
      match popUntilLParen buffer out with
      | .ok (buffer2, out2) =>
        match buffer2 with
        | [] => .thrown "Invalid parantheses: missing left parantheses"
        | _ :: buffer3 =>
          match buffer3 with
          | f :: buffer4 =>
            if f.tokenType == .func then
              match build f with
              | .ok k => rpn_go ts buffer4 (out2 ++ [Node.opNode k])
              | .thrown m => .thrown m
              | .exited m => .exited m
              | .ub => .ub
            else
              rpn_go ts buffer3 out2
          | [] => rpn_go ts buffer3 out2
      | .thrown m => .thrown m
      | .exited m => .exited m
      | .ub => .ub
    | .eq => .thrown ("Unknown token: " ++ t.identifier)

/-- `Calculator::build_reverse_polish_notation`. -/
def build_reverse_polish_notation (tokens : List Token) : Outcome (List Node) :=
  rpn_go tokens [] []

example : build_reverse_polish_notation
    [⟨"x", .var⟩, ⟨"+", .op⟩, ⟨"5", .number⟩, ⟨"-", .op⟩, ⟨"11", .number⟩] =
    .ok [.scalar [0, 1], .scalar [5], .opNode .add, .scalar [11], .opNode .sub] := by decide
example : build_reverse_polish_notation [⟨"(", .lparen⟩, ⟨"5", .number⟩] =
    .thrown "Mismatched parantheses" := by decide
example : build_reverse_polish_notation
    [⟨"lag", .func⟩, ⟨"(", .lparen⟩, ⟨"10", .number⟩, ⟨")", .rparen⟩] =
    .thrown "Invalid mathematical function lag" := by decide

/-! ## The postfix stack evaluator -/

/-- The C math-library functions used by `log`, `sin`, `cos` and `pow`,
idealized over ℚ.  The whole development is parametric in them: nothing
proven below depends on their values, only on lengths and error behavior. -/
structure TF where
  rlog : ℚ → ℚ
  rsin : ℚ → ℚ
  rcos : ℚ → ℚ
  rpow : ℚ → ℚ → ℚ

/-- A throwaway interpretation of the math-library functions, used to
instantiate witnesses on inputs that never call them. -/
def tf0 : TF := ⟨fun _ => 0, fun _ => 0, fun _ => 0, fun _ _ => 0⟩

/-- `Function::check_constants`: every argument must be a length-1
polynomial. -/
def check_constants (id : String) (args : List Coeffs) : Outcome Unit :=
  if args.all is_constant then .ok ()
  else .thrown ("Can't use " ++ id ++ " on polynomials of degree >= 2")

/-- The virtual `Function::apply` of each operation, after `check_arity`
(`Invalid number of parameters`, dead in practice because the evaluator pops
exactly `arity` operands).  `~` is `Polynomial(-1) * x` in the source.  The
mathematical functions check `check_constants` first and read the constant
term of each argument. -/
def applyFn (tf : TF) (k : OpKind) (args : List Coeffs) : Outcome Coeffs :=
  if args.length != arityOf k then
    .thrown ("Invalid number of parameters for " ++ identOf k)
  else
    match k, args with
    | .add, [a, b] => .ok (pAdd a b)
    | .sub, [a, b] => pSub a b
    | .mul, [a, b] => pMul a b
    | .div, [a, b] => pDiv a b
    | .neg, [a] => pMul [-1] a
    | .log, [a] =>
      match check_constants "log" [a] with
      | .ok _ =>
        match a.head? with
        | some a0 =>
          if a0 < EPS then
            .thrown "Can't take logarithm a number less than or equal to 0"
          else .ok [tf.rlog a0]
        | none => .ub
      | .thrown m => .thrown m
      | .exited m => .exited m
      | .ub => .ub
    | .max, [a, b] =>
      match check_constants "max" [a, b] with
      | .ok _ =>
        match a.head?, b.head? with
        | some a0, some b0 => .ok [max a0 b0]
        | _, _ => .ub
      | .thrown m => .thrown m
      | .exited m => .exited m
      | .ub => .ub
    | .min, [a, b] =>
      match check_constants "min" [a, b] with
      | .ok _ =>
        match a.head?, b.head? with
        | some a0, some b0 => .ok [min a0 b0]
        | _, _ => .ub
      | .thrown m => .thrown m
      | .exited m => .exited m
      | .ub => .ub
    | .pow, [a, b] =>
      match check_constants "pow" [a, b] with
      | .ok _ =>
        match a.head?, b.head? with
        | some a0, some b0 => .ok [tf.rpow a0 b0]
        | _, _ => .ub
      | .thrown m => .thrown m
      | .exited m => .exited m
      | .ub => .ub
    | .sin, [a] =>
      match check_constants "sin" [a] with
      | .ok _ =>
        match a.head? with
        | some a0 => .ok [tf.rsin a0]
        | none => .ub
      | .thrown m => .thrown m
      | .exited m => .exited m
      | .ub => .ub
    | .cos, [a] =>
      match check_constants "cos" [a] with
      | .ok _ =>
        match a.head? with
        | some a0 => .ok [tf.rcos a0]
        | none => .ub
      | .thrown m => .thrown m
      | .exited m => .exited m
      | .ub => .ub
    | _, _ => .ub

/-- The operand-popping loop of `process_reverse_polish_notation`: pop `n`
scalars off the stack, in pop order; `none` when the stack runs dry. -/
def popN : Nat → List Coeffs → Option (List Coeffs × List Coeffs)
  | 0, s => some ([], s)
  | _ + 1, [] => none
  | n + 1, p :: s =>
    match popN n s with
    | some (ops, rest) => some (p :: ops, rest)
    | none => none

/-- The node loop of `Calculator::process_reverse_polish_notation`: scalars
are pushed; an operation pops its arity (throwing `Insufficient number of
operands` on a dry stack), applies in restored left-to-right order, and
pushes the result.  A thrown `apply` error is caught at the call site,
printed, and followed by `exit(0)` — the `exited` outcome. -/
def process_go (tf : TF) : List Node → List Coeffs → Outcome (List Coeffs)
  | [], stack => .ok stack
  | n :: ns, stack =>
    match n with
    | .scalar p => process_go tf ns (p :: stack)
    | .opNode k =>
      match popN (arityOf k) stack with
      | none => .thrown ("Insufficient number of operands for " ++ identOf k)
      | some (operands, rest) =>
        match applyFn tf k operands.reverse with
        | .ok r => process_go tf ns (r :: rest)
        | .thrown m => .exited m
        | .exited m => .exited m
        | .ub => .ub

/-- `Calculator::process_reverse_polish_notation`: run the node loop on an
empty stack; exactly one scalar must remain. -/
def process_reverse_polish_notation (tf : TF) (queue : List Node) : Outcome Coeffs :=
  match process_go tf queue [] with
  | .ok [] => .thrown "Insufficient scalars left"
  | .ok [r] => .ok r
  | .ok (_ :: _ :: _) => .thrown "Too many scalars left"
  | .thrown m => .thrown m
  | .exited m => .exited m
  | .ub => .ub

example : process_reverse_polish_notation tf0
    [.scalar [0, 1], .scalar [5], .opNode .add, .scalar [11], .opNode .sub] =
    .ok [-6, 1] := by decide
example : process_reverse_polish_notation tf0 [] =
    .thrown "Insufficient scalars left" := by decide
example : process_reverse_polish_notation tf0 [.scalar [1], .scalar [0], .opNode .div] =
    .exited "Can't divide polynomial by 0" := by decide

/-! ## The mode orchestrator -/

/-- The `Equals` count taken in `compute_constant_result`. -/
def nr_equal_signs (tokens : List Token) : Nat :=
  tokens.countP (fun t => t.tokenType = .eq)

/-- The variable detection taken in `compute_constant_result`. -/
def contains_variable (tokens : List Token) : Bool :=
  tokens.any (fun t => t.tokenType == .var)

/-- The in-place rewrite of an `Equals` token into the binary `-` operator
token (`L = R` becomes `L - R`). -/
def rewriteEqToken (t : Token) : Token :=
  if t.tokenType == .eq then ⟨"-", .op⟩ else t

/-- `Calculator::compute_constant_result`: tokenize (wrapping a thrown error
with the tokenizer prefix — dead, since the tokenizer exits instead of
throwing), validate the equals/variable discipline, rewrite `=` to `-`,
build and evaluate the postfix sequence (each stage wrapping its thrown
errors with its prefix), then extract the constant term or solve for the
root depending on the mode. -/
def compute_constant_result (tf : TF) (e : List Char) : Outcome ℚ :=
  match tokenize_expression e with
  | .thrown m => .thrown ("Error in tokenizer: " ++ m ++ "\n")
  | .exited m => .exited m
  | .ub => .ub
  | .ok tokens =>
    if 1 < nr_equal_signs tokens then
      .thrown "Expression contains too many equal signs"
    else if (contains_variable tokens && nr_equal_signs tokens == 0)
        || (!contains_variable tokens && nr_equal_signs tokens != 0) then
      .thrown "Expression must contain both a variable and equal sign or neither"
    else
      match build_reverse_polish_notation (tokens.map rewriteEqToken) with
      | .thrown m => .thrown ("Error in building reverse polish notation: " ++ m)
      | .exited m => .exited m
      | .ub => .ub
      | .ok queue =>
        match process_reverse_polish_notation tf queue with
        | .thrown m => .thrown ("Error in processing reverse polish notation: " ++ m)
        | .exited m => .exited m
        | .ub => .ub
        | .ok result =>
          if contains_variable tokens then solve_degree_1 result
          else get_0 result

/-- Models `stringstream << result` on a `double` with default formatting:
an integral value prints with no decimal point.  (Non-integral values print
with six significant digits; this fixed-notation approximation is never
relied on below — every rendered value in the theorems is integral.) -/
def render (q : ℚ) : String :=
  if q.den = 1 then toString q.num
  else
    let sgn := if q.num < 0 then "-" else ""
    let n := q.num.natAbs
    let ip := n / q.den
    let decs := 6 - (min 6 (toString ip).length)
    let scaled := (n * 10 ^ decs + q.den / 2) / q.den
    let frStr := toString (scaled % 10 ^ decs + 10 ^ decs)
    let frTrim := String.mk (((frStr.data.drop 1).reverse.dropWhile (fun c => c == '0')).reverse)
    if frTrim = "" then sgn ++ toString (scaled / 10 ^ decs)
    else sgn ++ toString (scaled / 10 ^ decs) ++ "." ++ frTrim

/-- The outward behavior of one `Calculator::eval` call: a returned string,
process termination via `exit(0)`, or undefined behavior. -/
inductive EvalResult where
  | returns (s : String)
  | exits (msg : String)
  | ub
deriving DecidableEq

/-- `Calculator::eval`: render the computed value, or return the caught
error string in its place. -/
def eval (tf : TF) (expression : String) : EvalResult :=
  match compute_constant_result tf expression.data with
  | .ok v => .returns (render v)
  | .thrown m => .returns m
  | .exited m => .exits m
  | .ub => .ub

example : eval tf0 "4 + 9" = .returns "13" := by decide
example : eval tf0 "x + 5 = 11" = .returns "6" := by decide
example : eval tf0 "x * 0 = 10" = .returns "Constant can't equal 0, no solutions" := by decide
example : eval tf0 "=" =
    .returns "Expression must contain both a variable and equal sign or neither" := by decide
example : eval tf0 "(5" =
    .returns "Error in building reverse polish notation: Mismatched parantheses" := by decide
example : eval tf0 "lag(10)" =
    .returns "Error in building reverse polish notation: Invalid mathematical function lag" := by
  decide
example : eval tf0 "max(1)" =
    .returns "Error in processing reverse polish notation: Insufficient number of operands for max" := by
  decide
example : eval tf0 "" =
    .returns "Error in processing reverse polish notation: Insufficient scalars left" := by decide
example : eval tf0 "5 = x" = .ub := by decide
example : eval tf0 "1/0" = .exits "Can't divide polynomial by 0" := by decide
example : eval tf0 "$" = .exits "Error: Invalid operator" := by decide

/-! ## Spec-side definitions used in the theorem statements -/

/-- The claim's flag condition: a `Number`, `Variable` or `RightParen`
token. -/
def isEVR (t : Token) : Bool :=
  t.tokenType == .number || t.tokenType == .var || t.tokenType == .rparen

/-- The most recently produced non-`Whitespace` token of a token sequence
(`none` when there is none). -/
def lastRelevant : List Token → Option Token
  | [] => none
  | t :: ts =>
    match lastRelevant ts with
    | some u => some u
    | none => if t.tokenType != .whitespace then some t else none

/-- The claim's characterization of `expect_operator` after a token
sequence: true iff the most recently produced non-`Whitespace` token is a
`Number`, `Variable` or `RightParen`. -/
def expectSpec (toks : List Token) : Bool :=
  match lastRelevant toks with
  | some t => isEVR t
  | none => false

/-- The documented length invariant of Algebraic Values: coefficient
sequences of length exactly 1 or 2. -/
def lenOK (p : Coeffs) : Prop := p.length = 1 ∨ p.length = 2

/-- Every scalar node in a postfix queue satisfies the length invariant. -/
def nodeOK : Node → Prop
  | .scalar p => lenOK p
  | .opNode _ => True

/-! ## Helper lemmas -/

theorem foldl_nextExpect (toks : List Token) (b : Bool) :
    toks.foldl nextExpect b =
      (match lastRelevant toks with
       | some t => isEVR t
       | none => b) := by
  induction toks generalizing b with
  | nil => rfl
  | cons t ts ih =>
    rw [List.foldl_cons, ih, lastRelevant]
    cases h : lastRelevant ts with
    | some u => rfl
    | none =>
      by_cases hw : t.tokenType = .whitespace
      · simp [nextExpect, hw]
      · have : (t.tokenType != .whitespace) = true := by
          simp [bne_iff_ne, hw]
        simp only [this, if_true]
        cases ht : t.tokenType <;> simp_all [nextExpect, isEVR]

theorem pAdd_length (a b : Coeffs) : (pAdd a b).length = max a.length b.length := by
  simp [pAdd]

theorem pSub_ok_length {a b r : Coeffs} (h : pSub a b = .ok r) :
    r.length = a.length := by
  unfold pSub at h
  split at h
  · exact absurd h (by simp)
  · split at h
    · cases h; simp
    · exact absurd h (by simp)

theorem scaleByConst_ok_length {p q r : Coeffs} (h : scaleByConst p q = .ok r) :
    r.length = p.length := by
  unfold scaleByConst at h
  split at h
  · cases h; rfl
  · split at h
    · cases h; simp
    · exact absurd h (by simp)

theorem pMul_ok_length {a b r : Coeffs} (h : pMul a b = .ok r) :
    r.length = max a.length b.length := by
  unfold pMul at h
  split at h
  · exact absurd h (by simp)
  · split at h
    · rw [scaleByConst_ok_length h]; omega
    · rw [scaleByConst_ok_length h]; omega

theorem pDiv_ok_length {a b r : Coeffs} (h : pDiv a b = .ok r) :
    r.length = a.length := by
  unfold pDiv at h
  split at h
  · exact absurd h (by simp)
  · split at h
    · split at h
      · exact absurd h (by simp)
      · cases h; simp
    · exact absurd h (by simp)

theorem popN_eq {s ops rest : List Coeffs} :
    ∀ {n : Nat}, popN n s = some (ops, rest) → ops = s.take n ∧ rest = s.drop n := by
  induction s generalizing ops rest with
  | nil =>
    intro n h
    match n, h with
    | 0, h => cases h; simp
  | cons p s ih =>
    intro n h
    match n, h with
    | 0, h => cases h; simp
    | n + 1, h =>
      unfold popN at h
      cases hp : popN n s with
      | none => rw [hp] at h; cases h
      | some pr =>
        rw [hp] at h
        cases h
        obtain ⟨h1, h2⟩ := ih hp
        simp [List.take, List.drop, ← h1, ← h2]

theorem applyFn_ok_lenOK {tf : TF} {k : OpKind} {args : List Coeffs} {r : Coeffs}
    (hargs : ∀ p ∈ args, lenOK p) (h : applyFn tf k args = .ok r) : lenOK r := by
  unfold applyFn at h
  split at h
  · exact absurd h (by simp)
  · split at h
    · -- add
      rename_i a b hne
      cases h
      have ha := hargs a (by simp)
      have hb := hargs b (by simp)
      unfold lenOK at ha hb ⊢
      rw [pAdd_length]
      omega
    · -- sub
      rename_i a b hne
      have ha := hargs a (by simp)
      unfold lenOK at ha ⊢
      rw [pSub_ok_length h]
      omega
    · -- mul
      rename_i a b hne
      have ha := hargs a (by simp)
      have hb := hargs b (by simp)
      unfold lenOK at ha hb ⊢
      rw [pMul_ok_length h]
      omega
    · -- div
      rename_i a b hne
      have ha := hargs a (by simp)
      unfold lenOK at ha ⊢
      rw [pDiv_ok_length h]
      omega
    · -- neg
      rename_i a hne
      have ha := hargs a (by simp)
      unfold lenOK at ha ⊢
      rw [pMul_ok_length h]
      simp only [List.length_singleton]
      omega
    · -- log
      repeat' split at h
      all_goals first | (cases h; exact Or.inl rfl) | simp at h
    · -- max
      repeat' split at h
      all_goals first | (cases h; exact Or.inl rfl) | simp at h
    · -- min
      repeat' split at h
      all_goals first | (cases h; exact Or.inl rfl) | simp at h
    · -- pow
      repeat' split at h
      all_goals first | (cases h; exact Or.inl rfl) | simp at h
    · -- sin
      repeat' split at h
      all_goals first | (cases h; exact Or.inl rfl) | simp at h
    · -- cos
      repeat' split at h
      all_goals first | (cases h; exact Or.inl rfl) | simp at h
    · -- arity/shape mismatch arms
      exact absurd h (by simp)

theorem process_go_lenOK {tf : TF} {queue : List Node} :
    ∀ {stack stack2 : List Coeffs}, (∀ n ∈ queue, nodeOK n) → (∀ p ∈ stack, lenOK p) →
      process_go tf queue stack = .ok stack2 → ∀ p ∈ stack2, lenOK p := by
  induction queue with
  | nil =>
    intro stack stack2 _ hs h
    cases h
    exact hs
  | cons n ns ih =>
    intro stack stack2 hq hs h
    cases n with
    | scalar p =>
      have hEq : process_go tf (Node.scalar p :: ns) stack = process_go tf ns (p :: stack) := rfl
      rw [hEq] at h
      refine ih (fun m hm => hq m (by simp [hm])) ?_ h
      intro q hqq
      rcases List.mem_cons.1 hqq with rfl | hmem
      · exact hq (.scalar q) (by simp)
      · exact hs q hmem
    | opNode k =>
      have hEq : process_go tf (Node.opNode k :: ns) stack =
          (match popN (arityOf k) stack with
           | none => .thrown ("Insufficient number of operands for " ++ identOf k)
           | some (operands, rest) =>
             match applyFn tf k operands.reverse with
             | .ok r => process_go tf ns (r :: rest)
             | .thrown m => .exited m
             | .exited m => .exited m
             | .ub => .ub) := rfl
      rw [hEq] at h
      split at h
      · simp at h
      · rename_i ops0 rest0 hp
        split at h
        · rename_i r ha
          obtain ⟨hops, hrest⟩ := popN_eq hp
          refine ih (fun m hm => hq m (by simp [hm])) ?_ h
          intro q hqq
          rcases List.mem_cons.1 hqq with rfl | hmem
          · refine applyFn_ok_lenOK ?_ ha
            intro p hpmem
            refine hs p ?_
            have hmem2 : p ∈ ops0 := List.mem_reverse.1 hpmem
            rw [hops] at hmem2
            exact (List.take_sublist _ _).subset hmem2
          · refine hs q ?_
            rw [hrest] at hmem
            exact (List.drop_sublist _ _).subset hmem
        · simp at h
        · simp at h
        · simp at h

theorem scalarOfToken_ok_lenOK {t : Token} {p : Coeffs}
    (h : scalarOfToken t = .ok p) : lenOK p := by
  unfold scalarOfToken at h
  split at h
  · cases h; exact Or.inl rfl
  · cases h; exact Or.inr rfl
  · cases h

/-! ## The claims -/

/-- C3: `subtract(a,b)` signals `UnsupportedOperation` if and only if both
operands have coefficient length > 1; when legal, the result is `a` with
only its constant term changed to `a[0] - b[0]`, the non-constant
coefficients of `a` unchanged and every non-constant coefficient of `b`
ignored. -/
theorem C3_subtract_spec (a b : Coeffs) (ha : a ≠ []) (hb : b ≠ []) :
    (pSub a b = .thrown "Substraction not supported for polynomials of degree >= 1"
      ↔ 1 < a.length ∧ 1 < b.length)
    ∧ (¬(1 < a.length ∧ 1 < b.length) →
        pSub a b = .ok ((a.headD 0 - b.headD 0) :: a.tail)) := by
  rcases List.exists_cons_of_ne_nil ha with ⟨a0, as, rfl⟩
  rcases List.exists_cons_of_ne_nil hb with ⟨b0, bs, rfl⟩
  constructor
  · constructor
    · intro h
      by_contra hc
      unfold pSub at h
      rw [if_neg hc] at h
      simp at h
    · intro hlen
      unfold pSub
      rw [if_pos hlen]
  · intro hc
    unfold pSub
    rw [if_neg hc]
    simp [qsub_eq]

/-- Witness for C3 at `a = [5, 2]`, `b = [7]`: legal, and only the constant
term changes. -/
theorem C3_subtract_spec_witness : pSub [(5 : ℚ), 2] [7] = .ok [5 - 7, 2] :=
  (C3_subtract_spec [5, 2] [7] (by decide) (by decide)).2 (by decide)

/-- C4: `multiply(a,b)` signals `UnsupportedOperation` if and only if both
operands have coefficient length ≥ 2 (so two linear values always signal
it); otherwise the result is the longer operand — the left one on equal
lengths — with every coefficient scaled by the constant term of the other
operand. -/
theorem C4_multiply_spec (a b : Coeffs) (ha : a ≠ []) (hb : b ≠ []) :
    (pMul a b = .thrown "Multiplication of polynomials of degree >= 2 not allowed"
      ↔ 2 ≤ a.length ∧ 2 ≤ b.length)
    ∧ (¬(2 ≤ a.length ∧ 2 ≤ b.length) →
        pMul a b = .ok (if b.length ≤ a.length then a.map (fun x => x * b.headD 0)
                        else b.map (fun x => x * a.headD 0))) := by
  rcases List.exists_cons_of_ne_nil ha with ⟨a0, as, rfl⟩
  rcases List.exists_cons_of_ne_nil hb with ⟨b0, bs, rfl⟩
  constructor
  · constructor
    · intro h
      by_contra hc
      unfold pMul at h
      rw [if_neg hc] at h
      unfold scaleByConst at h
      split at h <;> simp_all
    · intro hlen
      unfold pMul
      rw [if_pos hlen]
  · intro hc
    unfold pMul
    rw [if_neg hc]
    by_cases hble : (b0 :: bs).length ≤ (a0 :: as).length
    all_goals simp only [List.length_cons] at hble
    · rw [if_pos (by simpa using hble)]
      unfold scaleByConst
      simp [qmul_eq]
      rw [if_pos (by omega)]
    · rw [if_neg (by simpa using hble)]
      unfold scaleByConst
      simp [qmul_eq]
      rw [if_neg (by omega)]

/-- Witness for C4 at `a = [0, 1]` (the variable), `b = [3]`: legal, and the
longer left operand is scaled by 3. -/
theorem C4_multiply_spec_witness : pMul [(0 : ℚ), 1] [3] = .ok [0, 3] := by
  have h := (C4_multiply_spec [0, 1] [3] (by decide) (by decide)).2 (by decide)
  simpa using h

/-- C1: the claim says `solveLinear` signals `NoSolution`/`InfiniteSolutions`
for every length-1 (constant) value reaching it, but the length guard in the
code tests `degree() == 0` — i.e. coefficient count zero — instead of
count < 2, so a length-1 value falls through to the read of `coeff[1]`,
an out-of-bounds access (undefined behavior).  Such a value is reachable:
`"5 = x"` evaluates `5 - x` via the constant-term-only subtraction to the
length-1 value `[5]`, and the whole program run hits the out-of-bounds
read. -/
theorem C1_solve_linear_out_of_bounds :
    solve_degree_1 [5] = Outcome.ub
    ∧ ∀ tf : TF, eval tf "5 = x" = EvalResult.ub :=
  ⟨by decide, fun _ => rfl⟩

/-- C2: the claim says every internal error is caught and returned as a
message string and never terminates the process, but the tokenize loop and
the postfix evaluator's function-application handler print the error and
call `exit(0)`: on `"1/0"` the division-by-zero error terminates the
process, and on `"$"` the lexical error terminates the process, instead of
being returned by `eval`. -/
theorem C2_internal_errors_terminate_process :
    ∀ tf : TF,
      eval tf "1/0" = EvalResult.exits "Can't divide polynomial by 0"
      ∧ eval tf "$" = EvalResult.exits ("Error: " ++ "Invalid operator") :=
  fun _ => ⟨rfl, rfl⟩

/-- C10: on the empty input string, `eval` returns the Postfix Evaluator's
empty-stack error wrapped with the processing-stage prefix — a returned
message string, not a numeric answer, an exception, or a crash. -/
theorem C10_empty_input_error :
    ∀ tf : TF,
      eval tf "" = EvalResult.returns
        ("Error in processing reverse polish notation: " ++ "Insufficient scalars left") :=
  fun _ => rfl

/-- C6: a `-` character is tokenized as the synthetic unary-negation
operator `~` exactly when `expect_operator` is false and as the ordinary
binary `-` operator when it is true; and the flag obtained by folding the
tokenizer's update over the produced tokens is true iff the most recently
produced non-`Whitespace` token is a `Number`, `Variable` or `RightParen`
(false at the start of input). -/
theorem C6_unary_minus_disambiguation :
    (∀ (cs : List Char) (expect : Bool),
        get_token ('-' :: cs) expect =
          .ok (⟨if expect then "-" else "~", .op⟩, 0))
    ∧ ∀ toks : List Token, toks.foldl nextExpect false = expectSpec toks := by
  constructor
  · intro cs expect
    cases expect <;> rfl
  · intro toks
    rw [foldl_nextExpect]
    unfold expectSpec
    cases lastRelevant toks <;> rfl

/-- C7: at an input position starting with `x`, the tokenizer produces the
length-1 `Variable` token if and only if it is not the case that more than
two characters remain and the next character is a letter; otherwise the `x`
begins a `Function`-name token (via the function-name scan). -/
theorem C7_variable_vs_function_name (cs : List Char) (expect : Bool) :
    (¬(2 < ('x' :: cs).length ∧ headAlpha cs = true) →
        get_token ('x' :: cs) expect = .ok (⟨"x", .var⟩, 0))
    ∧ ((2 < ('x' :: cs).length ∧ headAlpha cs = true) →
        get_token ('x' :: cs) expect =
          match scan_func cs with
          | .ok r => .ok (⟨String.mk ('x' :: r), .func⟩, r.length)
          | .thrown m => .thrown m
          | .exited m => .exited m
          | .ub => .ub) := by
  have hstep : get_token ('x' :: cs) expect =
      (if ('x' == 'x' && !(decide (2 < ('x' :: cs).length) && headAlpha cs)) = true
       then .ok (⟨"x", .var⟩, 0)
       else match scan_func cs with
         | .ok r => .ok (⟨String.mk ('x' :: r), .func⟩, r.length)
         | .thrown m => .thrown m
         | .exited m => .exited m
         | .ub => .ub) := rfl
  constructor
  · intro h
    rw [hstep, if_pos]
    simp only [beq_self_eq_true, Bool.true_and, Bool.not_eq_true',
      Bool.and_eq_false_iff, decide_eq_false_iff_not]
    by_cases h2 : 2 < ('x' :: cs).length
    · right
      cases hA : headAlpha cs
      · rfl
      · exact absurd ⟨h2, hA⟩ h
    · left
      exact h2
  · intro h
    rw [hstep, if_neg]
    simp only [beq_self_eq_true, Bool.true_and, Bool.not_eq_true',
      Bool.and_eq_false_iff, decide_eq_false_iff_not]
    push_neg
    exact ⟨h.1, by simp [h.2]⟩

/-- Witness for C7 at `"xyz"`: three characters remain and `y` is a letter,
so the `x` begins the function name `xyz`. -/
theorem C7_variable_vs_function_name_witness :
    get_token ['x', 'y', 'z'] false = .ok (⟨"xyz", .func⟩, 2) := by
  have h := (C7_variable_vs_function_name ['y', 'z'] false).2 (by decide)
  rw [h]
  decide

/-- C8: after tokenizing, evaluation signals `TooManyEqualsSigns` when more
than one `Equals` token is present, and otherwise signals
`InconsistentEquationForm` unless the sequence contains a `Variable` token
if and only if it contains exactly one `Equals` token; a lone `=` input
yields the `InconsistentEquationForm` message. -/
theorem C8_equals_variable_discipline (tf : TF) (e : List Char) (tokens : List Token)
    (htok : tokenize_expression e = .ok tokens) :
    (1 < nr_equal_signs tokens →
      compute_constant_result tf e = .thrown "Expression contains too many equal signs")
    ∧ (nr_equal_signs tokens ≤ 1 →
       ¬(contains_variable tokens = true ↔ nr_equal_signs tokens = 1) →
      compute_constant_result tf e =
        .thrown "Expression must contain both a variable and equal sign or neither")
    ∧ eval tf "=" = .returns "Expression must contain both a variable and equal sign or neither" := by
  refine ⟨?_, ?_, rfl⟩
  · intro hgt
    simp only [compute_constant_result, htok]
    rw [if_pos hgt]
  · intro hle hiff
    simp only [compute_constant_result, htok]
    rw [if_neg (by omega), if_pos]
    cases hv : contains_variable tokens
    · have h1 : nr_equal_signs tokens = 1 := by
        by_contra hne
        exact hiff (by simp [hv, hne])
      simp [hv, h1]
    · have h0 : nr_equal_signs tokens = 0 := by
        by_contra hne
        have h1 : nr_equal_signs tokens = 1 := by omega
        exact hiff (by simp [hv, h1])
      simp [hv, h0]

/-- Witness for C8 at the lone-equals input `"="`: one `Equals` token, no
variable, so the inconsistency error is thrown. -/
theorem C8_equals_variable_discipline_witness :
    compute_constant_result tf0 "=".data =
      .thrown "Expression must contain both a variable and equal sign or neither" :=
  (C8_equals_variable_discipline tf0 "=".data [⟨"=", .eq⟩] (by decide)).2.1
    (by decide) (by decide)

/-- C5: on an input whose tokens contain a variable and exactly one
`Equals`, the orchestrator rewrites the `Equals` token in place into the
binary `-` operator token, evaluates the rewritten token sequence through
the postfix stages, and applies `solveLinear` to the resulting single
value, its `NoSolution`/`InfiniteSolutions` errors propagating as the final
(unwrapped) error; in particular `evaluate("x + 5 = 11")` returns `"6"`
and `evaluate("x * 0 = 10")` returns the `NoSolution` message. -/
theorem C5_equation_mode (tf : TF) (e : List Char) (tokens : List Token)
    (htok : tokenize_expression e = .ok tokens)
    (hvar : contains_variable tokens = true)
    (heq : nr_equal_signs tokens = 1) :
    (compute_constant_result tf e =
      match build_reverse_polish_notation (tokens.map rewriteEqToken) with
      | .ok queue =>
        match process_reverse_polish_notation tf queue with
        | .ok v => solve_degree_1 v
        | .thrown m => .thrown ("Error in processing reverse polish notation: " ++ m)
        | .exited m => .exited m
        | .ub => .ub
      | .thrown m => .thrown ("Error in building reverse polish notation: " ++ m)
      | .exited m => .exited m
      | .ub => .ub)
    ∧ eval tf "x + 5 = 11" = .returns "6"
    ∧ eval tf "x * 0 = 10" = .returns "Constant can't equal 0, no solutions" := by
  refine ⟨?_, rfl, rfl⟩
  simp only [compute_constant_result, htok]
  rw [if_neg (by omega), if_neg (by simp [hvar, heq])]
  cases hb : build_reverse_polish_notation (tokens.map rewriteEqToken) with
  | ok queue =>
    simp only [hb]
    cases hp : process_reverse_polish_notation tf queue <;> simp [hp, hvar]
  | thrown m => simp [hb]
  | exited m => simp [hb]
  | ub => simp [hb]

/-- Witness for C5 at `"x + 5 = 11"`: its nine tokens contain the variable
and exactly one `Equals`, and the answer is `"6"`. -/
theorem C5_equation_mode_witness : eval tf0 "x + 5 = 11" = .returns "6" :=
  (C5_equation_mode tf0 "x + 5 = 11".data
    [⟨"x", .var⟩, ⟨"whitespace", .whitespace⟩, ⟨"+", .op⟩, ⟨"whitespace", .whitespace⟩,
     ⟨"5", .number⟩, ⟨"whitespace", .whitespace⟩, ⟨"=", .eq⟩, ⟨"whitespace", .whitespace⟩,
     ⟨"11", .number⟩]
    (by decide) (by decide) (by decide)).2.1

/-- C9: every Algebraic Value arising during an evaluation has coefficient
length exactly 1 or 2: values built from `Number`/`Variable` tokens, every
successful operation result given invariant-satisfying arguments, and — by
the stack induction — every value on the evaluator's stack. -/
theorem C9_value_length_invariant :
    (∀ (t : Token) (p : Coeffs), scalarOfToken t = .ok p → lenOK p)
    ∧ (∀ (tf : TF) (k : OpKind) (args : List Coeffs) (r : Coeffs),
        (∀ p ∈ args, lenOK p) → applyFn tf k args = .ok r → lenOK r)
    ∧ (∀ (tf : TF) (queue : List Node) (stack stack2 : List Coeffs),
        (∀ n ∈ queue, nodeOK n) → (∀ p ∈ stack, lenOK p) →
        process_go tf queue stack = .ok stack2 → ∀ p ∈ stack2, lenOK p) :=
  ⟨fun _ _ h => scalarOfToken_ok_lenOK h,
   fun _ _ _ _ hargs h => applyFn_ok_lenOK hargs h,
   fun _ _ _ _ hq hs h => process_go_lenOK hq hs h⟩

/-- Witness for C9: running the evaluator on `5`, `x`, `+` leaves the
single length-2 value `[5, 1]`, and the invariant holds of the final
stack. -/
theorem C9_value_length_invariant_witness :
    ∀ p ∈ [[(5 : ℚ), 1]], lenOK p :=
  C9_value_length_invariant.2.2 tf0 [.scalar [5], .scalar [0, 1], .opNode .add] [] [[5, 1]]
    (by intro n hn
        rcases List.mem_cons.1 hn with rfl | hn
        · exact Or.inl rfl
        rcases List.mem_cons.1 hn with rfl | hn
        · exact Or.inr rfl
        rcases List.mem_cons.1 hn with rfl | hn
        · trivial
        · cases hn)
    (by intro p hp; cases hp)
    (by decide)
